import Mathlib

/-!
Shallow embedding of the godev90/orm query builder and its validation
subsystem, translated from the Go sources (the `SqlQueryAdapter` builder in
`native.go` and the security-validation file). Machine strings are Lean
`String`s over their character lists; Go byte lengths coincide with character
counts on the ASCII inputs this development evaluates.
-/

/-- Error kinds of the security-validation subsystem (the sentinel errors
declared next to the validators in the source). -/
inductive OrmErr where
  | invalidIdentifier
  | invalidOrderBy
  | invalidJoinClause
  | invalidColumnName
  | identifierTooLong
  | suspiciousPattern
deriving Repr, DecidableEq

/-- Character class of the Go regexp escape `\s` (RE2: tab, newline, form
feed, carriage return, space). -/
def isRe2Space (c : Char) : Bool :=
  c = '\t' || c = '\n' || c = '\x0c' || c = '\r' || c = ' '

/-- Whitespace recognised by Go `strings.TrimSpace` (`unicode.IsSpace`),
restricted to the Latin-1 range. -/
def isGoSpace (c : Char) : Bool :=
  c = '\t' || c = '\n' || c = '\x0b' || c = '\x0c' || c = '\r' || c = ' '
    || c.val = 0x85 || c.val = 0xA0

/-- Go `strings.TrimSpace`. -/
def trimSpace (s : String) : String :=
  ⟨((s.data.dropWhile isGoSpace).reverse.dropWhile isGoSpace).reverse⟩

/-- Go `strings.ToUpper`; `Char.toUpper` agrees with it on ASCII, which covers
every denylist token. -/
def toUpperGo (s : String) : String := ⟨s.data.map Char.toUpper⟩

/-- Go `strings.ToLower`, ASCII fragment. -/
def toLowerGo (s : String) : String := ⟨s.data.map Char.toLower⟩

/-- Whether `pat` occurs as a contiguous run inside the character list. -/
def containsSubChars (pat : List Char) : List Char → Bool
  | [] => pat.isEmpty
  | c :: rest => pat.isPrefixOf (c :: rest) || containsSubChars pat rest

/-- Go `strings.Contains s pat`. -/
def containsSub (s pat : String) : Bool := containsSubChars pat.data s.data

/-- Occurrences of a character in a list. -/
def countCh (c : Char) (l : List Char) : Nat := l.countP (fun x => x = c)

/-- Go `strings.Count(s, "?")`: number of positional placeholder markers. -/
def countQ (s : String) : Nat := countCh '?' s.data

/-- Total placeholder count of a list of fragments. -/
def sumCountQ (l : List String) : Nat := (l.map countQ).sum

/-- Go `strings.Join(elems, sep)`. -/
def joinSep (sep : String) : List String → String
  | [] => ""
  | [x] => x
  | x :: y :: ys => x ++ sep ++ joinSep sep (y :: ys)

/-- Go `strings.Replace(s, "?", rep, 1)` on the character list: the pattern is
the single placeholder character, so the first `?` is replaced. -/
def replaceFirstQChars (rep : List Char) : List Char → List Char
  | [] => []
  | c :: rest => if c = '?' then rep ++ rest else c :: replaceFirstQChars rep rest

/-- Go `strings.Replace(s, "?", rep, 1)`. -/
def replaceFirstQ (rep s : String) : String := ⟨replaceFirstQChars rep.data s.data⟩

/-- Decimal digit character. -/
def digitChar : Nat → Char
  | 0 => '0'
  | 1 => '1'
  | 2 => '2'
  | 3 => '3'
  | 4 => '4'
  | 5 => '5'
  | 6 => '6'
  | 7 => '7'
  | 8 => '8'
  | 9 => '9'
  | _ => '*'

/-- Fuelled decimal rendering of a natural number (most significant digit
first); the fuel only needs to exceed the digit count. -/
def natToStrAux : Nat → Nat → List Char
  | 0, _ => []
  | fuel + 1, n =>
    if n < 10 then [digitChar n]
    else natToStrAux fuel (n / 10) ++ [digitChar (n % 10)]

/-- Decimal rendering of a natural number, as Go `fmt.Sprint` prints it. -/
def natToStr (n : Nat) : String := ⟨natToStrAux (n + 1) n⟩

/-- Decimal rendering of an integer, as Go `fmt.Sprint` prints it. -/
def intToStr : Int → String
  | .ofNat n => natToStr n
  | .negSucc n => "-" ++ natToStr (n + 1)

/-- Regular expressions over characters with character classes, used to embed
the compiled `regexp` patterns of the source. Every source pattern is anchored
`^...$` (no multiline flag), so Go `MatchString` is whole-string matching,
which is what the Brzozowski-derivative matcher below decides. -/
inductive RE where
  | emp : RE
  | eps : RE
  | cls : (Char → Bool) → RE
  | alt : RE → RE → RE
  | cat : RE → RE → RE
  | star : RE → RE

/-- Whether the regular expression accepts the empty string. -/
def RE.nullable : RE → Bool
  | .emp => false
  | .eps => true
  | .cls _ => false
  | .alt a b => a.nullable || b.nullable
  | .cat a b => a.nullable && b.nullable
  | .star _ => true

/-- Alternation, simplified so derivative terms stay small. -/
def RE.altS : RE → RE → RE
  | .emp, b => b
  | a, .emp => a
  | a, b => .alt a b

/-- Concatenation, simplified so derivative terms stay small. -/
def RE.catS : RE → RE → RE
  | .emp, _ => .emp
  | _, .emp => .emp
  | .eps, b => b
  | a, .eps => a
  | a, b => .cat a b

/-- Brzozowski derivative with respect to one character. -/
def RE.deriv (c : Char) : RE → RE
  | .emp => .emp
  | .eps => .emp
  | .cls p => if p c then .eps else .emp
  | .alt a b => RE.altS (a.deriv c) (b.deriv c)
  | .cat a b =>
    if a.nullable then RE.altS (RE.catS (a.deriv c) b) (b.deriv c)
    else RE.catS (a.deriv c) b
  | .star a => RE.catS (a.deriv c) (.star a)

/-- Whole-string matching by iterated derivatives (Go `MatchString` on the
anchored source patterns). -/
def reMatches (r : RE) (s : String) : Bool :=
  (s.data.foldl (fun a c => RE.deriv c a) r).nullable

/-- Single-character expression. -/
def RE.chr (c : Char) : RE := .cls (fun x => x = c)

/-- Literal-string expression. -/
def RE.lit (s : String) : RE := s.data.foldr (fun c r => .cat (.chr c) r) .eps

/-- Optional part (`r?`). -/
def RE.opt (r : RE) : RE := .alt r .eps

/-- One or more repetitions (`r+`). -/
def RE.plus (r : RE) : RE := .cat r (.star r)

/-- Character class `[a-zA-Z_]`. -/
def isIdentStart (c : Char) : Bool :=
  ('a' ≤ c && c ≤ 'z') || ('A' ≤ c && c ≤ 'Z') || c = '_'

/-- Character class `[a-zA-Z0-9_]`. -/
def isIdentChar (c : Char) : Bool :=
  isIdentStart c || ('0' ≤ c && c ≤ '9')

/-- Source `sqlIdentifierPattern`: `^[a-zA-Z_][a-zA-Z0-9_]*$`. -/
def sqlIdentifierPattern : RE := .cat (.cls isIdentStart) (.star (.cls isIdentChar))

/-- Source `columnNamePattern`: `^[a-zA-Z0-9_]+$`. -/
def columnNamePattern : RE := RE.plus (.cls isIdentChar)

/-- The regexp fragment `\s*`. -/
def wsStar : RE := .star (.cls isRe2Space)

/-- The regexp fragment `\s+`. -/
def wsPlus : RE := RE.plus (.cls isRe2Space)

/-- One `[table.]column [ASC|DESC]` term of the source `orderByPattern`:
`[a-zA-Z_][a-zA-Z0-9_]*(\.[a-zA-Z_][a-zA-Z0-9_]*)?\s*(ASC|DESC)?`. -/
def orderTermRE : RE :=
  .cat sqlIdentifierPattern
    (.cat (RE.opt (.cat (RE.chr '.') sqlIdentifierPattern))
      (.cat wsStar (RE.opt (.alt (RE.lit "ASC") (RE.lit "DESC")))))

/-- Source `orderByPattern`: one or more comma-separated order terms. -/
def orderByPattern : RE :=
  .cat orderTermRE (.star (.cat wsStar (.cat (RE.chr ',') (.cat wsStar orderTermRE))))

/-- Source `joinPattern`:
`^(INNER|LEFT|RIGHT|FULL\s+OUTER)?\s*JOIN\s+ident(\s+AS\s+ident)?\s+ON\s+.+$`,
where `.` is any character except newline. -/
def joinPattern : RE :=
  .cat
    (RE.opt (.alt (RE.lit "INNER") (.alt (RE.lit "LEFT")
      (.alt (RE.lit "RIGHT") (.cat (RE.lit "FULL") (.cat wsPlus (RE.lit "OUTER")))))))
    (.cat wsStar (.cat (RE.lit "JOIN")
      (.cat wsPlus (.cat sqlIdentifierPattern
        (.cat (RE.opt (.cat wsPlus (.cat (RE.lit "AS") (.cat wsPlus sqlIdentifierPattern))))
          (.cat wsPlus (.cat (RE.lit "ON")
            (.cat wsPlus (RE.plus (.cls (fun c => c ≠ '\n')))))))))))

/-- Length bound `maxIdentifierLen` from the source. -/
def maxIdentifierLen : Nat := 64

/-- Length bound `maxOrderByLen` from the source. -/
def maxOrderByLen : Nat := 256

/-- Length bound `maxJoinClauseLen` from the source. -/
def maxJoinClauseLen : Nat := 512

/-- Length bound `maxWhereClauseLen` from the source. -/
def maxWhereClauseLen : Nat := 1024

/-- The sixteen common denylist tokens of the source. -/
def commonSuspiciousPatterns : List String :=
  ["--", "/*", "*/", ";", "UNION", "DELETE", "DROP", "INSERT", "UPDATE",
   "EXEC", "EXECUTE", "DECLARE", "SELECT", "CREATE", "ALTER", "TRUNCATE"]

/-- The metadata-probing denylist tokens of the source. -/
def databaseMetadataPatterns : List String :=
  ["INFORMATION_SCHEMA", "SYS.", "MYSQL.", "PG_"]

/-- Source `validateSuspiciousPatterns`: upper-case the input once and reject
on the first token found as a substring. -/
def validateSuspiciousPatterns (input : String) (patterns : List String) : Option OrmErr :=
  if patterns.any (fun p => containsSub (toUpperGo input) p) then some .suspiciousPattern
  else none

/-- Source `validateLength`. -/
def validateLength (input : String) (maxLen : Nat) (errType : OrmErr) : Option OrmErr :=
  if maxLen < input.length then some errType else none

/-- Source `validateOrderByFormat`. -/
def validateOrderByFormat (orderBy : String) : Option OrmErr :=
  if reMatches orderByPattern (trimSpace orderBy) then none else some .invalidOrderBy

/-- Source `ValidateOrderBy`: empty accepted; then length, then the common
denylist (only `commonSuspiciousPatterns`), then the grammar. -/
def ValidateOrderBy (orderBy : String) : Option OrmErr :=
  if orderBy.length = 0 then none
  else
    match validateLength orderBy maxOrderByLen .invalidOrderBy with
    | some e => some e
    | none =>
      match validateSuspiciousPatterns orderBy commonSuspiciousPatterns with
      | some e => some e
      | none => validateOrderByFormat orderBy

/-- Source `validateJoinFormat`. -/
def validateJoinFormat (joinClause : String) : Option OrmErr :=
  if reMatches joinPattern (trimSpace joinClause) then none else some .invalidJoinClause

/-- Source `ValidateJoinClause`. -/
def ValidateJoinClause (joinClause : String) : Option OrmErr :=
  if joinClause.length = 0 then none
  else
    match validateLength joinClause maxJoinClauseLen .invalidJoinClause with
    | some e => some e
    | none =>
      match validateSuspiciousPatterns joinClause commonSuspiciousPatterns with
      | some e => some e
      | none => validateJoinFormat joinClause

/-- Source `ValidateColumnName`. -/
def ValidateColumnName (columnName : String) : Option OrmErr :=
  if columnName.length = 0 then some .invalidColumnName
  else if maxIdentifierLen < columnName.length then some .identifierTooLong
  else if reMatches columnNamePattern columnName then none
  else some .invalidColumnName

/-- Source `ValidateIdentifier`. -/
def ValidateIdentifier (identifier : String) : Option OrmErr :=
  if identifier.length = 0 then some .invalidIdentifier
  else if maxIdentifierLen < identifier.length then some .identifierTooLong
  else if reMatches sqlIdentifierPattern identifier then none
  else some .invalidIdentifier

/-- Source `SanitizeColumnNames`: trim each name, validate it, return the
first rejection or the cleaned list. -/
def SanitizeColumnNames : List String → Except OrmErr (List String)
  | [] => .ok []
  | col :: rest =>
    match ValidateColumnName (trimSpace col) with
    | some e => .error e
    | none =>
      match SanitizeColumnNames rest with
      | .error e => .error e
      | .ok tl => .ok (trimSpace col :: tl)

/-- First identifier rejection among the dot-separated parts (the loop body of
source `validateTableColumnFormat`). -/
def firstIdentErr : List String → Option OrmErr
  | [] => none
  | p :: rest =>
    match ValidateIdentifier p with
    | some e => some e
    | none => firstIdentErr rest

/-- Go `strings.Split(s, ".")` on the character list: the dot-separated
groups, empty groups included. -/
def splitDotChars : List Char → List (List Char)
  | [] => [[]]
  | c :: rest =>
    match splitDotChars rest with
    | [] => [[c]]
    | p :: ps => if c = '.' then [] :: p :: ps else (c :: p) :: ps

/-- Go `strings.Split(s, ".")`. -/
def splitDot (s : String) : List String :=
  (splitDotChars s.data).map (fun l => ⟨l⟩)

/-- Source `validateTableColumnFormat`. -/
def validateTableColumnFormat (field : String) : Except OrmErr String :=
  let parts := splitDot field
  if 2 < parts.length then .error .invalidColumnName
  else
    match firstIdentErr parts with
    | some e => .error e
    | none => .ok field

/-- Source `sanitizeSelectField`: wildcard passes, else a one- or two-segment
dotted identifier. -/
def sanitizeSelectField (field : String) : Except OrmErr String :=
  let trimmed := trimSpace field
  if trimmed = "*" then .ok trimmed
  else validateTableColumnFormat trimmed

/-- Source `SanitizeSelectFields`. -/
def SanitizeSelectFields : List String → Except OrmErr (List String)
  | [] => .ok []
  | field :: rest =>
    match sanitizeSelectField field with
    | .error e => .error e
    | .ok f =>
      match SanitizeSelectFields rest with
      | .error e => .error e
      | .ok tl => .ok (f :: tl)

/-- Source `ValidateWhereClause`: length, then the common patterns joined with
the metadata-probing patterns. -/
def ValidateWhereClause (whereClause : String) : Option OrmErr :=
  match validateLength whereClause maxWhereClauseLen .suspiciousPattern with
  | some e => some e
  | none =>
    validateSuspiciousPatterns whereClause
      (commonSuspiciousPatterns ++ databaseMetadataPatterns)

/-- Source `ValidateHavingClause`: every clause must pass the WHERE-clause
check (the aggregate-function inspection in the source has an empty body). -/
def ValidateHavingClause : List String → Option OrmErr
  | [] => none
  | c :: rest =>
    match ValidateWhereClause c with
    | some e => some e
    | none => ValidateHavingClause rest

/-- The two driver flavors of the source. -/
inductive driverFlavor where
  | FlavorMySQL
  | FlavorPostgres
deriving Repr, DecidableEq

/-- A scalar driver value. -/
inductive Val where
  | str : String → Val
  | int : Int → Val
deriving Repr, DecidableEq

/-- A positional argument as passed by callers: a scalar, or a Go slice/array
value (the two shapes `Where` distinguishes through reflection). -/
inductive Arg where
  | scalar : Val → Arg
  | seq : List Val → Arg
deriving Repr, DecidableEq

/-- Whether the argument is a slice/array of length zero. -/
def Arg.isEmptySeq : Arg → Bool
  | .seq vs => vs.isEmpty
  | .scalar _ => false

/-- The `SqlQueryAdapter` builder state of `native.go`. The `model` field
holds the bound `Tabler` as the table name its `TableName()` returns (the only
observation the code makes of it), or `none` for the nil interface. -/
structure SqlQueryAdapter where
  flavor : driverFlavor
  table : String
  fields : List String
  groups : List String
  havings : List String
  havingArgs : List Arg
  joins : List String
  joinArgs : List Arg
  wheres : List String
  whereArgs : List Arg
  orWheres : List String
  orArgs : List Arg
  orderBy : String
  limit : Option Int
  offset : Option Int
  model : Option String
deriving Repr, DecidableEq

/-- Source `NewSqlAdapter`: fresh adapter with wildcard field list and empty
clause state (the table is Go's zero string until `UseModel` binds one). -/
def initAdapter (fl : driverFlavor) : SqlQueryAdapter :=
  { flavor := fl, table := "", fields := ["*"], groups := [], havings := [],
    havingArgs := [], joins := [], joinArgs := [], wheres := [], whereArgs := [],
    orWheres := [], orArgs := [], orderBy := "", limit := none, offset := none,
    model := none }

/-- Source `UseModel`: clone, bind the model, set the table from it. -/
def SqlQueryAdapter.UseModel (q : SqlQueryAdapter) (m : String) : SqlQueryAdapter :=
  { q with model := some m, table := m }

/-- The condition argument of `Where`: a string condition or a sub-builder
(the two dynamic types the source dispatches on). -/
inductive WhereCond where
  | str : String → WhereCond
  | sub : SqlQueryAdapter → WhereCond

/-- One step of the argument loop in the string path of `Where`: scalars are
kept; a non-empty slice expands the first `?` of the condition into a
parenthesised list and flattens its elements; an empty slice replaces the
whole condition with the constant-false predicate `1=0`. -/
def whereStep : String × List Arg → Arg → String × List Arg
  | (condStr, finalArgs), .scalar v => (condStr, finalArgs ++ [.scalar v])
  | (condStr, finalArgs), .seq vs =>
    if vs.length = 0 then ("1=0", finalArgs)
    else
      (replaceFirstQ ("(" ++ joinSep ", " (List.replicate vs.length "?") ++ ")") condStr,
       finalArgs ++ vs.map Arg.scalar)

/-- String path of source `Where`. -/
def whereStrImpl (q : SqlQueryAdapter) (cond : String) (args : List Arg) :
    SqlQueryAdapter :=
  let r := args.foldl whereStep (cond, [])
  { q with wheres := q.wheres ++ [r.1], whereArgs := q.whereArgs ++ r.2 }

/-- The common-prefix loop of the sub-builder path of `Where`: number of
leading fragments of `sub.wheres` textually equal to those of `q.wheres`, and
the placeholder count accumulated over the matching fragments. -/
def commonPrefixScan : List String → List String → Nat × Nat
  | qw :: qs, sw :: ss =>
    if sw = qw then
      let r := commonPrefixScan qs ss
      (r.1 + 1, r.2 + countQ qw)
    else (0, 0)
  | _, _ => (0, 0)

/-- The grouped predicate the sub-builder path appends:
`(ANDs joined by " AND " [ OR (ORs joined by " OR ") ])`. -/
def groupFrag (subWheres orWheres : List String) : String :=
  "("
    ++ (if 0 < subWheres.length then joinSep " AND " subWheres else "")
    ++ (if 0 < orWheres.length then
          (if 0 < subWheres.length then " OR " else "")
            ++ "(" ++ joinSep " OR " orWheres ++ ")"
        else "")
    ++ ")"

/-- Sub-builder path of source `Where`: when the sub-builder carries the same
model, the receiver has AND fragments, and the sub-builder has at least as
many, the common leading fragments are stripped and the matching leading
argument count (placeholders of the stripped fragments) is dropped; the
remainder is appended as one grouped predicate. -/
def whereSubImpl (q sub : SqlQueryAdapter) : SqlQueryAdapter :=
  let stripped :=
    if sub.model = q.model ∧ 0 < q.wheres.length ∧ q.wheres.length ≤ sub.wheres.length then
      let c := commonPrefixScan q.wheres sub.wheres
      if 0 < c.1 then
        (sub.wheres.drop c.1,
         if c.2 ≤ sub.whereArgs.length then sub.whereArgs.drop c.2 else [])
      else (sub.wheres, sub.whereArgs)
    else (sub.wheres, sub.whereArgs)
  { q with
    wheres := q.wheres ++ [groupFrag stripped.1 sub.orWheres],
    whereArgs := q.whereArgs ++ stripped.2 ++ sub.orArgs }

/-- Source `Where`. -/
def SqlQueryAdapter.Where (q : SqlQueryAdapter) (cond : WhereCond) (args : List Arg) :
    SqlQueryAdapter :=
  match cond with
  | .sub sub => whereSubImpl q sub
  | .str s => whereStrImpl q s args

/-- Source `Or`: append to the separate OR fragment and argument lists. -/
def SqlQueryAdapter.Or (q : SqlQueryAdapter) (cond : String) (args : List Arg) :
    SqlQueryAdapter :=
  { q with orWheres := q.orWheres ++ [cond], orArgs := q.orArgs ++ args }

/-- Source `Join`: validate first; on rejection return the adapter unchanged. -/
def SqlQueryAdapter.Join (q : SqlQueryAdapter) (joinClause : String) (args : List Arg) :
    SqlQueryAdapter :=
  match ValidateJoinClause joinClause with
  | some _ => q
  | none => { q with joins := q.joins ++ [joinClause], joinArgs := q.joinArgs ++ args }

/-- Source `Select`: sanitize first; on rejection return the adapter
unchanged; a non-empty sanitized list replaces the field list. -/
def SqlQueryAdapter.Select (q : SqlQueryAdapter) (sel : List String) : SqlQueryAdapter :=
  match SanitizeSelectFields sel with
  | .error _ => q
  | .ok sanitized =>
    if 0 < sanitized.length then { q with fields := sanitized } else q

/-- Source `GroupBy`: sanitize first; on rejection return the adapter
unchanged; a non-empty sanitized list replaces the grouping columns. -/
def SqlQueryAdapter.GroupBy (q : SqlQueryAdapter) (cols : List String) : SqlQueryAdapter :=
  match SanitizeColumnNames cols with
  | .error _ => q
  | .ok sanitized =>
    if 0 < sanitized.length then { q with groups := sanitized } else q

/-- Source `Having`: validate first; on rejection return the adapter
unchanged; a non-empty clause list replaces the having fragments while the
arguments are appended to the existing argument list. -/
def SqlQueryAdapter.Having (q : SqlQueryAdapter) (cols : List String) (args : List Arg) :
    SqlQueryAdapter :=
  match ValidateHavingClause cols with
  | some _ => q
  | none =>
    if 0 < cols.length then { q with havings := cols, havingArgs := q.havingArgs ++ args }
    else q

/-- Source `Limit`. -/
def SqlQueryAdapter.Limit (q : SqlQueryAdapter) (l : Int) : SqlQueryAdapter :=
  { q with limit := some l }

/-- Source `Offset`. -/
def SqlQueryAdapter.Offset (q : SqlQueryAdapter) (o : Int) : SqlQueryAdapter :=
  { q with offset := some o }

/-- Source `Order`: validate first; on rejection return the adapter
unchanged. -/
def SqlQueryAdapter.Order (q : SqlQueryAdapter) (order : String) : SqlQueryAdapter :=
  match ValidateOrderBy order with
  | some _ => q
  | none => { q with orderBy := order }

/-- Source `UnsafeOrder`: set the order string with no validation. -/
def SqlQueryAdapter.UnsafeOrder (q : SqlQueryAdapter) (order : String) : SqlQueryAdapter :=
  { q with orderBy := order }

/-- The placeholder-numbering loop at the end of source `build` for the
Postgres flavor: every `?` byte of the assembled text becomes `$n`, `n`
counting from 1 in text order. -/
def pgConvertChars : List Char → Nat → List Char
  | [], _ => []
  | c :: rest, idx =>
    if c = '?' then ('$' :: (natToStr (idx + 1)).data) ++ pgConvertChars rest (idx + 1)
    else c :: pgConvertChars rest idx

/-- The Postgres placeholder rewrite of source `build`. -/
def pgConvert (s : String) : String := ⟨pgConvertChars s.data 0⟩

/-- The `WHERE` section of source `build`: written only when AND or OR
fragments exist; AND fragments joined by `" AND "`, then the OR block as one
parenthesised disjunction, the two sides separated by `" OR "`. -/
def whereSection (q : SqlQueryAdapter) : String :=
  if 0 < q.wheres.length ∨ 0 < q.orWheres.length then
    (if 0 < q.wheres.length then " WHERE " ++ joinSep " AND " q.wheres else " WHERE ")
      ++ (if 0 < q.orWheres.length then
            (if 0 < q.wheres.length then " OR " else "")
              ++ "(" ++ joinSep " OR " q.orWheres ++ ")"
          else "")
  else ""

/-- Source `build`: assemble the statement text and the ordered argument
list, each section written in source order (select/from, joins, where,
grouping, having, order, limit, offset). Argument order is join, AND, OR,
then having arguments; count projections omit grouping, having, order, limit
and offset; the Postgres flavor ends with the placeholder-numbering pass. -/
def SqlQueryAdapter.build (q : SqlQueryAdapter) (count : Bool) : String × List Arg :=
  let text :=
    (if count then "SELECT COUNT(1) FROM "
     else "SELECT " ++ joinSep ", " q.fields ++ " FROM ")
    ++ q.table
    ++ (if 0 < q.joins.length then " " ++ joinSep " " q.joins else "")
    ++ whereSection q
    ++ (if 0 < q.groups.length ∧ count = false then " GROUP BY " ++ joinSep ", " q.groups
        else "")
    ++ (if 0 < q.havings.length ∧ count = false then " HAVING " ++ joinSep ", " q.havings
        else "")
    ++ (if q.orderBy ≠ "" ∧ count = false then " ORDER BY " ++ q.orderBy else "")
    ++ (match q.limit with
        | some l => if count = false then " LIMIT " ++ intToStr l else ""
        | none => "")
    ++ (match q.offset with
        | some o => if count = false then " OFFSET " ++ intToStr o else ""
        | none => "")
  let args :=
    q.joinArgs
    ++ (if 0 < q.wheres.length then q.whereArgs else [])
    ++ (if 0 < q.orWheres.length then q.orArgs else [])
    ++ (if 0 < q.havings.length ∧ count = false then q.havingArgs else [])
  (if q.flavor = .FlavorPostgres then pgConvert text else text, args)

/-- The `LIMIT 1` augmentation in source `First`: append only when the
lower-cased assembled text nowhere contains the substring `limit`. -/
def SqlQueryAdapter.firstSql (q : SqlQueryAdapter) : String :=
  let sqlStr := (q.build false).1
  if containsSub (toLowerGo sqlStr) "limit" then sqlStr else sqlStr ++ " LIMIT 1"

/-- Faults of the execution/materialization family surfaced by `Scan` and
`First` (`ErrTablerNotImplemented`, `ErrNotFound`, driver/cursor errors, and
decoding failures). -/
inductive OrmFault where
  | tablerNotImplemented
  | notFound
  | cursorErr : Nat → OrmFault
  | parseFailed
deriving Repr, DecidableEq

/-- The external row cursor once drained: the fetched rows (each of type `ρ`)
and the terminal `rows.Err()` value. -/
structure ExecResult (ρ : Type) where
  rows : List ρ
  rowsErr : Option OrmFault

/-- The model-binding prologue shared by source `Scan` and `First`: when no
model is bound and the destination implements `Tabler`, the receiver itself
gets its `model` and `table` fields set from the destination (no clone);
when neither is available the tabler-not-implemented fault is returned.
`destTabler` is the destination's `TableName()` when it implements `Tabler`. -/
def bindModel (q : SqlQueryAdapter) (destTabler : Option String) :
    Except OrmFault SqlQueryAdapter :=
  if q.model = none then
    match destTabler with
    | some t => .ok { q with model := some t, table := t }
    | none => .error .tablerNotImplemented
  else .ok q

/-- Source `First` over a drained cursor: bind the model on the receiver,
issue `firstSql`, and consume at most the first row. With no rows, the cursor
error is surfaced when present, else the distinct record-not-found fault.
Returns the receiver's post-state, the issued statement text, and the
outcome; `decodeRow` stands for the field-map/convertAssign decoding of one
row into the destination. -/
def SqlQueryAdapter.First {ρ δ : Type} (q : SqlQueryAdapter) (destTabler : Option String)
    (res : ExecResult ρ) (dest : δ) (decodeRow : δ → ρ → Except OrmFault δ) :
    SqlQueryAdapter × String × Except OrmFault δ :=
  match bindModel q destTabler with
  | .error e => (q, "", .error e)
  | .ok q2 =>
    (q2, q2.firstSql,
      match res.rows with
      | [] =>
        match res.rowsErr with
        | some e => .error e
        | none => .error .notFound
      | r :: _ => decodeRow dest r)

/-- The single-struct destination path of source `Scan` over a drained
cursor: bind the model on the receiver, issue the built statement unchanged,
decode the first row when one exists, and otherwise leave the destination
untouched and finish with `rows.Err()` (nil on a clean empty cursor). -/
def SqlQueryAdapter.ScanStruct {ρ δ : Type} (q : SqlQueryAdapter) (destTabler : Option String)
    (res : ExecResult ρ) (dest : δ) (decodeRow : δ → ρ → Except OrmFault δ) :
    SqlQueryAdapter × String × Except OrmFault δ :=
  match bindModel q destTabler with
  | .error e => (q, "", .error e)
  | .ok q2 =>
    (q2, (q2.build false).1,
      match res.rows with
      | [] =>
        match res.rowsErr with
        | some e => .error e
        | none => .ok dest
      | r :: _ =>
        match decodeRow dest r with
        | .error e => .error e
        | .ok d =>
          match res.rowsErr with
          | some e => .error e
          | none => .ok d)

/-- Well-formedness of one string-condition `Where` call: either no argument
is an empty slice and the condition carries exactly one placeholder per
argument (a non-empty slice consumes the one placeholder written for it), or
every argument is an empty slice (the call degenerates to the constant-false
predicate). -/
def WfWhereArgs (cond : String) (args : List Arg) : Prop :=
  ((∀ a ∈ args, a.isEmptySeq = false) ∧ countQ cond = args.length) ∨
    (args ≠ [] ∧ ∀ a ∈ args, a.isEmptySeq = true)

/-- The placeholder/argument bookkeeping invariant on builder state: each
fragment family carries exactly as many placeholders as its argument list has
entries, and the non-fragment text (table, fields, grouping columns, order
string) is placeholder-free. -/
def PhInv (q : SqlQueryAdapter) : Prop :=
  sumCountQ q.joins = q.joinArgs.length ∧
  sumCountQ q.wheres = q.whereArgs.length ∧
  sumCountQ q.orWheres = q.orArgs.length ∧
  sumCountQ q.havings = q.havingArgs.length ∧
  countQ q.table = 0 ∧
  sumCountQ q.fields = 0 ∧
  sumCountQ q.groups = 0 ∧
  countQ q.orderBy = 0

/-- Builder states reachable from a fresh adapter through well-formed chain
calls: `Where` with a string condition obeying `WfWhereArgs` or with a
sub-builder that is itself reachable, `Or` and `Join` contributing one
argument per placeholder, `Having` applied to a builder with no pending
having state, plus model binding, limit and offset. -/
inductive Reach : SqlQueryAdapter → Prop where
  | init : ∀ fl, Reach (initAdapter fl)
  | useModel : ∀ q m, Reach q → countQ m = 0 → Reach (q.UseModel m)
  | whereStr : ∀ q cond args, Reach q → WfWhereArgs cond args →
      Reach (q.Where (.str cond) args)
  | whereSub : ∀ q sub args, Reach q → Reach sub → Reach (q.Where (.sub sub) args)
  | orCall : ∀ q cond args, Reach q → countQ cond = args.length → Reach (q.Or cond args)
  | joinCall : ∀ q jc args, Reach q → countQ jc = args.length → Reach (q.Join jc args)
  | havingCall : ∀ q cols args, Reach q → q.havings = [] → q.havingArgs = [] →
      sumCountQ cols = args.length → Reach (q.Having cols args)
  | limitCall : ∀ q l, Reach q → Reach (q.Limit l)
  | offsetCall : ∀ q o, Reach q → Reach (q.Offset o)

/-- The builder of the spec scenario: table `users`, one AND fragment, two OR
fragments, the order string `created_at DESC` (installed through
`UnsafeOrder`, since the validating `Order` rejects it: its upper-casing
contains the denylisted token `CREATE`), and limit 10. -/
def scenarioAdapter (fl : driverFlavor) : SqlQueryAdapter :=
  (((((initAdapter fl).UseModel "users").Where (.str "status = ?")
        [.scalar (.str "active")]).Or "role = ?" [.scalar (.str "admin")]
      |>.Or "role = ?" [.scalar (.str "owner")]).UnsafeOrder "created_at DESC").Limit 10

/-- A builder reached by two validated `Having` calls: the second call
replaces the having fragments yet appends its arguments to the ones already
recorded. -/
def havingTwiceAdapter : SqlQueryAdapter :=
  (((initAdapter .FlavorMySQL).UseModel "t").Having ["count(x) > ?"]
      [.scalar (.int 1)]).Having ["sum(y) > ?"] [.scalar (.int 2)]

/-- A Postgres-flavored builder whose single AND fragment holds one
placeholder inside a quoted string literal and one true placeholder. -/
def pgLiteralAdapter : SqlQueryAdapter :=
  ((initAdapter .FlavorPostgres).UseModel "t").Where
    (.str "note = 'ok?' AND id = ?") [.scalar (.str "5")]

/-- Parent builder for the sub-builder flattening example. -/
def prefixParentAdapter : SqlQueryAdapter :=
  ((initAdapter .FlavorMySQL).UseModel "users").Where (.str "a = ?") [.scalar (.int 1)]

/-- Sub-builder derived from `prefixParentAdapter` with one more AND fragment
and one OR fragment. -/
def prefixSubAdapter : SqlQueryAdapter :=
  (prefixParentAdapter.Where (.str "b = ?") [.scalar (.int 2)]).Or "c = ?" [.scalar (.int 3)]

/-- Whether a sanitization outcome is a rejection (a non-nil Go error). -/
def isSanitizeError {α : Type} : Except OrmErr α → Bool
  | .error _ => true
  | .ok _ => false

theorem countQ_append (a b : String) : countQ (a ++ b) = countQ a + countQ b := by
  simp [countQ, countCh, String.data_append, List.countP_append]

theorem sumCountQ_nil : sumCountQ [] = 0 := rfl

theorem sumCountQ_cons (x : String) (l : List String) :
    sumCountQ (x :: l) = countQ x + sumCountQ l := by
  simp [sumCountQ]

theorem sumCountQ_append (l1 l2 : List String) :
    sumCountQ (l1 ++ l2) = sumCountQ l1 + sumCountQ l2 := by
  simp [sumCountQ]

theorem countQ_joinSep (sep : String) (h : countQ sep = 0) :
    ∀ l : List String, countQ (joinSep sep l) = sumCountQ l
  | [] => by simp [joinSep, sumCountQ]; rfl
  | [x] => by simp [joinSep, sumCountQ]
  | x :: y :: ys => by
    have ih := countQ_joinSep sep h (y :: ys)
    simp [joinSep, countQ_append, h, ih, sumCountQ_cons]

theorem digitChar_ne_q (n : Nat) : digitChar n ≠ '?' := by
  unfold digitChar; split <;> decide

theorem digitChar_ne_dollar (n : Nat) : digitChar n ≠ '$' := by
  unfold digitChar; split <;> decide

theorem countCh_natToStrAux (c : Char) (hc : ∀ d, digitChar d ≠ c) :
    ∀ fuel n : Nat, countCh c (natToStrAux fuel n) = 0 := by
  intro fuel
  induction fuel with
  | zero => intro n; simp [natToStrAux, countCh]
  | succ f ih =>
    intro n
    by_cases h : n < 10
    · simp [natToStrAux, h, countCh, List.countP_cons, hc n]
    · simp [natToStrAux, h, countCh, List.countP_append, List.countP_cons,
        hc (n % 10)]
      have := ih (n / 10)
      simpa [countCh] using this

theorem countCh_natToStr_q (n : Nat) : countCh '?' (natToStr n).data = 0 :=
  countCh_natToStrAux '?' digitChar_ne_q (n + 1) n

theorem countCh_natToStr_dollar (n : Nat) : countCh '$' (natToStr n).data = 0 :=
  countCh_natToStrAux '$' digitChar_ne_dollar (n + 1) n

theorem countQ_natToStr (n : Nat) : countQ (natToStr n) = 0 :=
  countCh_natToStr_q n

theorem countQ_intToStr (i : Int) : countQ (intToStr i) = 0 := by
  cases i with
  | ofNat n => simpa [intToStr] using countQ_natToStr n
  | negSucc n =>
    simp [intToStr, countQ_append]
    constructor
    · decide
    · exact countQ_natToStr (n + 1)

theorem countCh_replaceFirstQChars (rep : List Char) :
    ∀ l : List Char, 0 < countCh '?' l →
      countCh '?' (replaceFirstQChars rep l) + 1 = countCh '?' l + countCh '?' rep := by
  intro l
  induction l with
  | nil => intro h; simp [countCh] at h
  | cons c rest ih =>
    intro h
    by_cases hc : c = '?'
    · subst hc
      simp [replaceFirstQChars, countCh, List.countP_append, List.countP_cons]
      omega
    · have h2 : 0 < countCh '?' rest := by
        simpa [countCh, List.countP_cons, hc] using h
      have := ih h2
      simp [replaceFirstQChars, hc, countCh, List.countP_cons] at *
      omega

theorem countQ_replaceFirstQ (rep s : String) (h : 0 < countQ s) :
    countQ (replaceFirstQ rep s) + 1 = countQ s + countQ rep := by
  simpa [countQ, replaceFirstQ] using countCh_replaceFirstQChars rep.data s.data h

theorem countQ_placeholders (n : Nat) :
    countQ ("(" ++ joinSep ", " (List.replicate n "?") ++ ")") = n := by
  have h1 : countQ (joinSep ", " (List.replicate n "?")) = sumCountQ (List.replicate n "?") :=
    countQ_joinSep ", " (by decide) _
  have h2 : sumCountQ (List.replicate n "?") = n := by
    have hq : countQ "?" = 1 := by decide
    simp [sumCountQ, List.map_replicate, List.sum_replicate, smul_eq_mul, hq]
  have h3 : countQ "(" = 0 := by decide
  have h4 : countQ ")" = 0 := by decide
  simp [countQ_append, h1, h2, h3, h4]

theorem foldl_whereStep_allEmpty (args : List Arg) :
    ∀ (c : String) (fa : List Arg), args ≠ [] → (∀ a ∈ args, a.isEmptySeq = true) →
      args.foldl whereStep (c, fa) = ("1=0", fa) := by
  induction args with
  | nil => intro c fa h _; exact absurd rfl h
  | cons a rest ih =>
    intro c fa _ hall
    have ha := hall a (by simp)
    obtain ⟨vs, rfl⟩ : ∃ vs, a = Arg.seq vs := by
      cases a with
      | scalar v => simp [Arg.isEmptySeq] at ha
      | seq vs => exact ⟨vs, rfl⟩
    have hvs : vs.length = 0 := by
      cases vs with
      | nil => rfl
      | cons x xs => simp [Arg.isEmptySeq] at ha
    have hstep : whereStep (c, fa) (Arg.seq vs) = ("1=0", fa) := by
      simp [whereStep, hvs]
    rw [List.foldl_cons, hstep]
    cases rest with
    | nil => simp
    | cons b bs =>
      exact ih "1=0" fa (by simp) (fun x hx => hall x (by simp [hx]))

theorem foldl_whereStep_count (args : List Arg) :
    ∀ (c : String) (fa : List Arg),
      (∀ a ∈ args, a.isEmptySeq = false) →
      args.length ≤ countQ c →
      countQ (args.foldl whereStep (c, fa)).1 + fa.length + args.length
        = (args.foldl whereStep (c, fa)).2.length + countQ c := by
  induction args with
  | nil => intro c fa _ _; simp; omega
  | cons a rest ih =>
    intro c fa hall hlen
    cases a with
    | scalar v =>
      have hstep : whereStep (c, fa) (Arg.scalar v) = (c, fa ++ [Arg.scalar v]) := rfl
      rw [List.foldl_cons, hstep]
      have := ih c (fa ++ [Arg.scalar v]) (fun x hx => hall x (by simp [hx]))
        (by simp at hlen; omega)
      simp at this ⊢
      omega
    | seq vs =>
      have hvs : 0 < vs.length := by
        have := hall (Arg.seq vs) (by simp)
        cases vs with
        | nil => simp [Arg.isEmptySeq] at this
        | cons x xs => simp
      have hvsne : ¬ vs.length = 0 := by omega
      have hstep : whereStep (c, fa) (Arg.seq vs) =
          (replaceFirstQ ("(" ++ joinSep ", " (List.replicate vs.length "?") ++ ")") c,
           fa ++ vs.map Arg.scalar) := by
        simp [whereStep, hvsne]
      rw [List.foldl_cons, hstep]
      have hc : 0 < countQ c := by simp at hlen; omega
      have hrep := countQ_replaceFirstQ
        ("(" ++ joinSep ", " (List.replicate vs.length "?") ++ ")") c hc
      rw [countQ_placeholders] at hrep
      have hlen2 : rest.length ≤
          countQ (replaceFirstQ ("(" ++ joinSep ", " (List.replicate vs.length "?") ++ ")") c) := by
        simp at hlen; omega
      have := ih (replaceFirstQ ("(" ++ joinSep ", " (List.replicate vs.length "?") ++ ")") c)
        (fa ++ vs.map Arg.scalar) (fun x hx => hall x (by simp [hx])) hlen2
      simp at this ⊢
      omega

theorem commonPrefixScan_spec : ∀ (qs ss : List String),
    (commonPrefixScan qs ss).1 ≤ ss.length ∧
    (commonPrefixScan qs ss).2 = sumCountQ (ss.take (commonPrefixScan qs ss).1) := by
  intro qs
  induction qs with
  | nil => intro ss; simp [commonPrefixScan]; rfl
  | cons qw qtl ih =>
    intro ss
    cases ss with
    | nil => simp [commonPrefixScan]; rfl
    | cons sw stl =>
      by_cases h : sw = qw
      · have ih2 := ih stl
        have ih21 := ih2.1
        simp [commonPrefixScan, h, sumCountQ_cons, ih2.2]
        constructor
        · omega
        · omega
      · simp [commonPrefixScan, h, sumCountQ_nil]

theorem commonPrefixScan_full_prefix (qs rest : List String) :
    commonPrefixScan qs (qs ++ rest) = (qs.length, sumCountQ qs) := by
  induction qs with
  | nil => simp [commonPrefixScan]; rfl
  | cons x xs ih =>
    simp [commonPrefixScan, ih, sumCountQ_cons]
    omega

theorem countQ_groupFrag (ws os : List String) :
    countQ (groupFrag ws os) = sumCountQ ws + sumCountQ os := by
  have hAnd : countQ " AND " = 0 := by decide
  have hOr : countQ " OR " = 0 := by decide
  have hl : countQ "(" = 0 := by decide
  have hr : countQ ")" = 0 := by decide
  have hOrp : countQ " OR (" = 0 := by decide
  unfold groupFrag
  rcases ws with _ | ⟨w, wtl⟩ <;> rcases os with _ | ⟨o, otl⟩ <;>
    simp [countQ_append, countQ_joinSep " AND " hAnd, countQ_joinSep " OR " hOr,
      hl, hr, hOrp, sumCountQ_cons, sumCountQ_nil]
  all_goals decide

theorem phInv_init (fl : driverFlavor) : PhInv (initAdapter fl) := by
  refine ⟨?_, ?_, ?_, ?_, ?_, ?_, ?_, ?_⟩ <;> simp [initAdapter] <;> decide

theorem phInv_useModel (q : SqlQueryAdapter) (m : String) (h : PhInv q)
    (hm : countQ m = 0) : PhInv (q.UseModel m) := by
  obtain ⟨hj, hwq, ho, hh, ht, hf, hg, hord⟩ := h
  exact ⟨hj, hwq, ho, hh, hm, hf, hg, hord⟩

theorem phInv_whereStr (q : SqlQueryAdapter) (cond : String) (args : List Arg)
    (h : PhInv q) (hw : WfWhereArgs cond args) : PhInv (whereStrImpl q cond args) := by
  obtain ⟨hj, hwq, ho, hh, ht, hf, hg, hord⟩ := h
  have hfrag : countQ (args.foldl whereStep (cond, [])).1
      = (args.foldl whereStep (cond, [])).2.length := by
    rcases hw with ⟨hne, hcnt⟩ | ⟨hne, hall⟩
    · have hmain := foldl_whereStep_count args cond [] hne (le_of_eq hcnt.symm)
      simp at hmain
      omega
    · rw [foldl_whereStep_allEmpty args cond [] hne hall]
      decide
  refine ⟨?_, ?_, ?_, ?_, ?_, ?_, ?_, ?_⟩ <;>
    simp [whereStrImpl, sumCountQ_append, sumCountQ_cons, sumCountQ_nil,
      hj, hwq, ho, hh, ht, hf, hg, hord, hfrag]

theorem phInv_append_group (q : SqlQueryAdapter) (ws : List String) (wa : List Arg)
    (os : List String) (oa : List Arg) (h : PhInv q)
    (hfrag : sumCountQ ws = wa.length) (hor : sumCountQ os = oa.length) :
    PhInv { q with wheres := q.wheres ++ [groupFrag ws os],
                   whereArgs := q.whereArgs ++ wa ++ oa } := by
  obtain ⟨hj, hwq, ho, hh, ht, hf, hg, hord⟩ := h
  refine ⟨hj, ?_, ho, hh, ht, hf, hg, hord⟩
  simp [sumCountQ_append, sumCountQ_cons, sumCountQ_nil, countQ_groupFrag]
  omega

theorem phInv_whereSub (q sub : SqlQueryAdapter) (h : PhInv q) (hs : PhInv sub) :
    PhInv (whereSubImpl q sub) := by
  have swq := hs.2.1
  have so := hs.2.2.1
  unfold whereSubImpl
  by_cases hcond : sub.model = q.model ∧ 0 < q.wheres.length ∧
      q.wheres.length ≤ sub.wheres.length
  · simp only [if_pos hcond]
    by_cases hc1 : 0 < (commonPrefixScan q.wheres sub.wheres).1
    · simp only [if_pos hc1]
      have hspec := commonPrefixScan_spec q.wheres sub.wheres
      have hsp2 := hspec.2
      have htd : sumCountQ (sub.wheres.take (commonPrefixScan q.wheres sub.wheres).1)
          + sumCountQ (sub.wheres.drop (commonPrefixScan q.wheres sub.wheres).1)
          = sumCountQ sub.wheres := by
        rw [← sumCountQ_append, List.take_append_drop]
      have hc2le : (commonPrefixScan q.wheres sub.wheres).2 ≤ sub.whereArgs.length := by
        omega
      simp only [if_pos hc2le]
      exact phInv_append_group q _ _ _ _ h
        (by simp [List.length_drop]; omega) so
    · simp only [if_neg hc1]
      exact phInv_append_group q _ _ _ _ h (by omega) so
  · simp only [if_neg hcond]
    exact phInv_append_group q _ _ _ _ h (by omega) so

theorem phInv_where (q : SqlQueryAdapter) (cond : WhereCond) (args : List Arg)
    (h : PhInv q)
    (hok : match cond with
      | .str s => WfWhereArgs s args
      | .sub sub => PhInv sub) :
    PhInv (q.Where cond args) := by
  cases cond with
  | str s => exact phInv_whereStr q s args h hok
  | sub sb => exact phInv_whereSub q sb h hok

theorem phInv_or (q : SqlQueryAdapter) (cond : String) (args : List Arg)
    (h : PhInv q) (hc : countQ cond = args.length) : PhInv (q.Or cond args) := by
  obtain ⟨hj, hwq, ho, hh, ht, hf, hg, hord⟩ := h
  refine ⟨?_, ?_, ?_, ?_, ?_, ?_, ?_, ?_⟩ <;>
    simp [SqlQueryAdapter.Or, sumCountQ_append, sumCountQ_cons, sumCountQ_nil,
      hj, hwq, ho, hh, ht, hf, hg, hord, hc]

theorem phInv_join (q : SqlQueryAdapter) (jc : String) (args : List Arg)
    (h : PhInv q) (hc : countQ jc = args.length) : PhInv (q.Join jc args) := by
  obtain ⟨hj, hwq, ho, hh, ht, hf, hg, hord⟩ := h
  cases hv : ValidateJoinClause jc with
  | some e => simpa [SqlQueryAdapter.Join, hv] using
      (⟨hj, hwq, ho, hh, ht, hf, hg, hord⟩ : PhInv q)
  | none =>
    refine ⟨?_, ?_, ?_, ?_, ?_, ?_, ?_, ?_⟩ <;>
      simp [SqlQueryAdapter.Join, hv, sumCountQ_append, sumCountQ_cons, sumCountQ_nil,
        hj, hwq, ho, hh, ht, hf, hg, hord, hc]

theorem phInv_having (q : SqlQueryAdapter) (cols : List String) (args : List Arg)
    (h : PhInv q) (hempty : q.havingArgs = []) (hc : sumCountQ cols = args.length) :
    PhInv (q.Having cols args) := by
  obtain ⟨hj, hwq, ho, hh, ht, hf, hg, hord⟩ := h
  cases hv : ValidateHavingClause cols with
  | some e => simpa [SqlQueryAdapter.Having, hv] using
      (⟨hj, hwq, ho, hh, ht, hf, hg, hord⟩ : PhInv q)
  | none =>
    by_cases hlen : 0 < cols.length
    · refine ⟨?_, ?_, ?_, ?_, ?_, ?_, ?_, ?_⟩ <;>
        simp [SqlQueryAdapter.Having, hv, hlen, hempty,
          hj, hwq, ho, hh, ht, hf, hg, hord, hc]
    · refine ⟨?_, ?_, ?_, ?_, ?_, ?_, ?_, ?_⟩ <;>
        simp [SqlQueryAdapter.Having, hv, hlen,
          hj, hwq, ho, hh, ht, hf, hg, hord]

theorem phInv_limit (q : SqlQueryAdapter) (l : Int) (h : PhInv q) :
    PhInv (q.Limit l) := by
  obtain ⟨hj, hwq, ho, hh, ht, hf, hg, hord⟩ := h
  exact ⟨hj, hwq, ho, hh, ht, hf, hg, hord⟩

theorem phInv_offset (q : SqlQueryAdapter) (o : Int) (h : PhInv q) :
    PhInv (q.Offset o) := by
  obtain ⟨hj, hwq, ho, hh, ht, hf, hg, hord⟩ := h
  exact ⟨hj, hwq, ho, hh, ht, hf, hg, hord⟩

theorem reach_phInv (q : SqlQueryAdapter) (h : Reach q) : PhInv q := by
  induction h with
  | init fl => exact phInv_init fl
  | useModel q m _ hm ih => exact phInv_useModel q m ih hm
  | whereStr q cond args _ hw ih => exact phInv_whereStr q cond args ih hw
  | whereSub q sub args _ _ ihq ihs => exact phInv_whereSub q sub ihq ihs
  | orCall q cond args _ hc ih => exact phInv_or q cond args ih hc
  | joinCall q jc args _ hc ih => exact phInv_join q jc args ih hc
  | havingCall q cols args _ hh0 ha0 hc ih => exact phInv_having q cols args ih ha0 hc
  | limitCall q l _ ih => exact phInv_limit q l ih
  | offsetCall q o _ ih => exact phInv_offset q o ih

set_option maxHeartbeats 3200000 in
theorem phInv_build (q : SqlQueryAdapter) (count : Bool) (h : PhInv q)
    (hf : q.flavor = driverFlavor.FlavorMySQL) :
    countQ ((q.build count).1) = ((q.build count).2).length := by
  obtain ⟨hj, hwq, ho, hh, ht, hfld, hg, hord⟩ := h
  have c1 : countQ "SELECT COUNT(1) FROM " = 0 := by decide
  have c2 : countQ "SELECT " = 0 := by decide
  have c3 : countQ " FROM " = 0 := by decide
  have c4 : countQ " " = 0 := by decide
  have c5 : countQ " WHERE " = 0 := by decide
  have c6 : countQ " OR " = 0 := by decide
  have c7 : countQ "(" = 0 := by decide
  have c8 : countQ ")" = 0 := by decide
  have c9 : countQ " GROUP BY " = 0 := by decide
  have c10 : countQ " HAVING " = 0 := by decide
  have c11 : countQ " ORDER BY " = 0 := by decide
  have c12 : countQ " LIMIT " = 0 := by decide
  have c13 : countQ " OFFSET " = 0 := by decide
  have c14 : countQ " OR (" = 0 := by decide
  have c0 : countQ "" = 0 := by decide
  have j1 := countQ_joinSep ", " (by decide)
  have j2 := countQ_joinSep " " (by decide)
  have j3 := countQ_joinSep " AND " (by decide)
  have j4 := countQ_joinSep " OR " (by decide)
  have hpg : ¬ q.flavor = driverFlavor.FlavorPostgres := by simp [hf]
  have hja : q.joins.length = 0 → q.joinArgs.length = 0 := by
    intro hjlen
    have hje : q.joins = [] := List.length_eq_zero.mp hjlen
    rw [hje] at hj
    simpa [sumCountQ] using hj.symm
  rcases Nat.eq_zero_or_pos q.joins.length with hjlen | hjlen <;>
    [have hja0 : q.joinArgs.length = 0 := hja hjlen; skip] <;>
    simp only [SqlQueryAdapter.build, whereSection] <;>
    rw [if_neg hpg] <;>
    cases hlim : q.limit <;> cases hoff : q.offset <;> cases count <;>
    simp only [hlim, hoff, reduceCtorEq, eq_self_iff_true, and_true, and_false,
      if_true, if_false, ite_true, ite_false] <;>
    split_ifs <;>
    simp only [countQ_append, j1, j2, j3, j4, c0, c1, c2, c3, c4, c5, c6, c7, c8,
      c9, c10, c11, c12, c13, c14, countQ_intToStr, List.length_append,
      List.length_nil] <;>
    omega

theorem countCh_append (c : Char) (l1 l2 : List Char) :
    countCh c (l1 ++ l2) = countCh c l1 + countCh c l2 := by
  simp [countCh, List.countP_append]

theorem countCh_cons (c a : Char) (l : List Char) :
    countCh c (a :: l) = countCh c l + (if a = c then 1 else 0) := by
  simp [countCh, List.countP_cons]

theorem countCh_pgConvertChars_q (l : List Char) :
    ∀ idx : Nat, countCh '?' (pgConvertChars l idx) = 0 := by
  induction l with
  | nil => intro idx; rfl
  | cons c rest ih =>
    intro idx
    by_cases hc : c = '?'
    · simp only [pgConvertChars, if_pos hc, countCh_append, countCh_cons,
        ih (idx + 1), countCh_natToStr_q (idx + 1)]
      decide
    · simp only [pgConvertChars, if_neg hc, countCh_cons, ih idx]

theorem countCh_pgConvertChars_dollar (l : List Char) :
    ∀ idx : Nat, countCh '$' (pgConvertChars l idx)
      = countCh '$' l + countCh '?' l := by
  induction l with
  | nil => intro idx; rfl
  | cons c rest ih =>
    intro idx
    by_cases hc : c = '?'
    · subst hc
      have e1 : pgConvertChars ('?' :: rest) idx
          = ('$' :: (natToStr (idx + 1)).data) ++ pgConvertChars rest (idx + 1) := by
        simp [pgConvertChars]
      rw [e1, countCh_append, countCh_cons, countCh_natToStr_dollar, ih]
      simp only [countCh_cons]
      simp
      omega
    · simp only [pgConvertChars, if_neg hc, countCh_cons, ih idx]
      omega

theorem countQ_pgConvert (s : String) : countQ (pgConvert s) = 0 :=
  countCh_pgConvertChars_q s.data 0

theorem countDollar_pgConvert (s : String) :
    countCh '$' (pgConvert s).data = countCh '$' s.data + countQ s :=
  countCh_pgConvertChars_dollar s.data 0

/-- C1 (amended): every order-by input of length at most 256 that contains one
of the sixteen common denylist tokens as a case-insensitive substring is
rejected by `ValidateOrderBy` with the suspicious-pattern outcome, regardless
of whether it otherwise matches the ORDER BY grammar; the metadata-probing
tokens are not part of this check (see the counterexample). -/
theorem validateOrderBy_rejects_common_tokens (s : String)
    (hlen : s.length ≤ 256)
    (h : commonSuspiciousPatterns.any (fun p => containsSub (toUpperGo s) p) = true) :
    ValidateOrderBy s = some .suspiciousPattern := by
  have h0 : ¬ s.length = 0 := by
    intro h0
    obtain ⟨l⟩ := s
    have hl : l = [] := List.length_eq_zero.mp h0
    subst hl
    exact absurd h (by decide)
  have hlt : ¬ maxOrderByLen < s.length := by
    simp [maxOrderByLen]
    omega
  simp [ValidateOrderBy, h0, validateLength, hlt, validateSuspiciousPatterns, h]

/-- Witness for C1: the spec example `name ASC; DROP TABLE users` carries the
token `;` and is rejected as a suspicious pattern. -/
theorem validateOrderBy_rejects_common_tokens_witness :
    ValidateOrderBy "name ASC; DROP TABLE users" = some .suspiciousPattern :=
  validateOrderBy_rejects_common_tokens "name ASC; DROP TABLE users"
    (by decide) (by decide)

/-- Counterexample for C1 as stated: `INFORMATION_SCHEMA.TABLES` contains the
metadata-probing denylist token `INFORMATION_SCHEMA` yet `ValidateOrderBy`
accepts it, because the order-by validator checks only the common token list. -/
theorem validateOrderBy_metadata_token_accepted :
    ValidateOrderBy "INFORMATION_SCHEMA.TABLES" = none ∧
    containsSub (toUpperGo "INFORMATION_SCHEMA.TABLES") "INFORMATION_SCHEMA" = true ∧
    "INFORMATION_SCHEMA" ∈ databaseMetadataPatterns :=
  ⟨rfl, rfl, by decide⟩

/-- C2 (amended): for every builder state reachable through well-formed chain
calls (`Reach`), the number of placeholder markers in the statement text
returned by `build` equals the length of the returned argument list, under
the generic `?`-marker flavor. -/
theorem build_placeholder_argument_invariant (q : SqlQueryAdapter) (count : Bool)
    (hq : Reach q) (hf : q.flavor = driverFlavor.FlavorMySQL) :
    countQ ((q.build count).1) = ((q.build count).2).length :=
  phInv_build q count (reach_phInv q hq) hf

/-- Witness for C2 at a concrete chain of calls. -/
theorem build_placeholder_argument_invariant_witness :
    countQ ((((((initAdapter .FlavorMySQL).UseModel "users").Where
        (.str "status = ?") [.scalar (.str "active")]).Or "role = ?"
        [.scalar (.str "admin")]).build false).1)
      = (((((initAdapter .FlavorMySQL).UseModel "users").Where
        (.str "status = ?") [.scalar (.str "active")]).Or "role = ?"
        [.scalar (.str "admin")]).build false).2.length :=
  build_placeholder_argument_invariant _ false
    (Reach.orCall _ _ _
      (Reach.whereStr _ _ _
        (Reach.useModel _ _ (Reach.init _) (by decide))
        (Or.inl ⟨by decide, by decide⟩))
      (by decide))
    rfl

/-- Counterexample for C2 as stated: two validated `Having` calls, each
contributing one argument per placeholder, leave a build whose text has one
marker but whose argument list has two entries, because `Having` replaces the
fragment list yet appends to the argument list. -/
theorem having_twice_breaks_placeholder_invariant :
    countQ ((havingTwiceAdapter.build false).1) = 1 ∧
    ((havingTwiceAdapter.build false).2).length = 2 :=
  ⟨rfl, rfl⟩

/-- C3: on a rejected input each validating chain method returns the receiver
unchanged (so no error is raised and the rejected fragment can never reach a
subsequently assembled statement). -/
theorem chain_methods_noop_on_rejected_input (q : SqlQueryAdapter)
    (ord jc : String) (jargs : List Arg) (sel gcols hcols : List String)
    (hargs : List Arg)
    (h1 : (ValidateOrderBy ord).isSome = true)
    (h2 : (ValidateJoinClause jc).isSome = true)
    (h3 : isSanitizeError (SanitizeSelectFields sel) = true)
    (h4 : isSanitizeError (SanitizeColumnNames gcols) = true)
    (h5 : (ValidateHavingClause hcols).isSome = true) :
    q.Order ord = q ∧ q.Join jc jargs = q ∧ q.Select sel = q ∧
      q.GroupBy gcols = q ∧ q.Having hcols hargs = q := by
  refine ⟨?_, ?_, ?_, ?_, ?_⟩
  · obtain ⟨e, he⟩ := Option.isSome_iff_exists.mp h1
    simp [SqlQueryAdapter.Order, he]
  · obtain ⟨e, he⟩ := Option.isSome_iff_exists.mp h2
    simp [SqlQueryAdapter.Join, he]
  · rcases hs : SanitizeSelectFields sel with e | v
    · simp [SqlQueryAdapter.Select, hs]
    · rw [hs] at h3
      simp [isSanitizeError] at h3
  · rcases hs : SanitizeColumnNames gcols with e | v
    · simp [SqlQueryAdapter.GroupBy, hs]
    · rw [hs] at h4
      simp [isSanitizeError] at h4
  · obtain ⟨e, he⟩ := Option.isSome_iff_exists.mp h5
    simp [SqlQueryAdapter.Having, he]

/-- Witness for C3 at concrete rejected inputs for all five methods. -/
theorem chain_methods_noop_on_rejected_input_witness :
    ((initAdapter .FlavorMySQL).UseModel "users").Order "name; DROP TABLE users"
        = (initAdapter .FlavorMySQL).UseModel "users" ∧
      ((initAdapter .FlavorMySQL).UseModel "users").Join "JOIN a ON b; DROP" []
        = (initAdapter .FlavorMySQL).UseModel "users" ∧
      ((initAdapter .FlavorMySQL).UseModel "users").Select ["id; DROP TABLE x"]
        = (initAdapter .FlavorMySQL).UseModel "users" ∧
      ((initAdapter .FlavorMySQL).UseModel "users").GroupBy ["group name"]
        = (initAdapter .FlavorMySQL).UseModel "users" ∧
      ((initAdapter .FlavorMySQL).UseModel "users").Having ["total > 0; DROP"] []
        = (initAdapter .FlavorMySQL).UseModel "users" :=
  chain_methods_noop_on_rejected_input _ "name; DROP TABLE users"
    "JOIN a ON b; DROP" [] ["id; DROP TABLE x"] ["group name"]
    ["total > 0; DROP"] [] (by decide) (by decide) (by decide) (by decide)
    (by decide)

/-- C4: the spec scenario builder assembles exactly the documented statement
and argument list under both marker flavors. -/
theorem build_scenario_users_statement :
    (scenarioAdapter .FlavorMySQL).build false =
      ("SELECT * FROM users WHERE status = ? OR (role = ? OR role = ?) ORDER BY created_at DESC LIMIT 10",
       [Arg.scalar (Val.str "active"), Arg.scalar (Val.str "admin"),
        Arg.scalar (Val.str "owner")]) ∧
    (scenarioAdapter .FlavorPostgres).build false =
      ("SELECT * FROM users WHERE status = $1 OR (role = $2 OR role = $3) ORDER BY created_at DESC LIMIT 10",
       [Arg.scalar (Val.str "active"), Arg.scalar (Val.str "admin"),
        Arg.scalar (Val.str "owner")]) :=
  ⟨rfl, rfl⟩

/-- C5: a `Where` call whose condition has one placeholder and whose sole
argument is an empty sequence appends the constant-false predicate `1=0`
instead of the fragment and contributes no arguments. -/
theorem where_empty_sequence_constant_false (q : SqlQueryAdapter) (cond : String)
    (_h : countQ cond = 1) :
    q.Where (.str cond) [.seq []] = { q with wheres := q.wheres ++ ["1=0"] } := by
  simp [SqlQueryAdapter.Where, whereStrImpl, whereStep]

/-- Witness for C5 at `id IN ?` with an empty slice. -/
theorem where_empty_sequence_constant_false_witness :
    ((initAdapter .FlavorMySQL).UseModel "t").Where (.str "id IN ?") [.seq []]
      = { (initAdapter .FlavorMySQL).UseModel "t" with
          wheres := ((initAdapter .FlavorMySQL).UseModel "t").wheres ++ ["1=0"] } :=
  where_empty_sequence_constant_false _ "id IN ?" (by decide)

/-- C6: when a sub-builder carries the same model and its AND fragments start
with exactly the receiver's AND fragments, `Where` strips that shared prefix,
drops the matching leading arguments (counted by placeholder occurrences in
the stripped fragments), and appends the remainder as one grouped predicate. -/
theorem whereSub_strips_shared_leading_fragments (q sub : SqlQueryAdapter)
    (rest : List String)
    (hm : sub.model = q.model) (hw : sub.wheres = q.wheres ++ rest)
    (hne : q.wheres ≠ [])
    (hargs : sumCountQ q.wheres ≤ sub.whereArgs.length) :
    q.Where (.sub sub) [] = { q with
      wheres := q.wheres ++ [groupFrag rest sub.orWheres],
      whereArgs := q.whereArgs ++ sub.whereArgs.drop (sumCountQ q.wheres)
        ++ sub.orArgs } := by
  have hlen : 0 < q.wheres.length := List.length_pos.mpr hne
  have hscan : commonPrefixScan q.wheres sub.wheres
      = (q.wheres.length, sumCountQ q.wheres) := by
    rw [hw]
    exact commonPrefixScan_full_prefix q.wheres rest
  have hcond : sub.model = q.model ∧ 0 < q.wheres.length ∧
      q.wheres.length ≤ sub.wheres.length := by
    refine ⟨hm, hlen, ?_⟩
    rw [hw]
    simp
  have hdrop : sub.wheres.drop q.wheres.length = rest := by
    rw [hw]
    exact List.drop_left q.wheres rest
  simp only [SqlQueryAdapter.Where, whereSubImpl]
  rw [if_pos hcond, hscan]
  simp only
  rw [if_pos hlen, if_pos hargs, hdrop]

/-- Witness for C6: the sub-builder derived from the parent by one more AND
fragment and an OR fragment is flattened with the shared `a = ?` stripped. -/
theorem whereSub_strips_shared_leading_fragments_witness :
    prefixParentAdapter.Where (.sub prefixSubAdapter) [] =
      { prefixParentAdapter with
        wheres := prefixParentAdapter.wheres
          ++ [groupFrag ["b = ?"] prefixSubAdapter.orWheres],
        whereArgs := prefixParentAdapter.whereArgs
          ++ prefixSubAdapter.whereArgs.drop (sumCountQ prefixParentAdapter.wheres)
          ++ prefixSubAdapter.orArgs } :=
  whereSub_strips_shared_leading_fragments prefixParentAdapter prefixSubAdapter
    ["b = ?"] (by decide) (by decide) (by decide) (by decide)

/-- C7 (amended): the Postgres numbering pass of `build` rewrites every `?`
character of the assembled text, each advancing the numbering, whether the
character is a true positional marker or sits inside already-substituted
literal text: no `?` survives and one `$` is introduced per `?`. -/
theorem pg_rewrite_numbers_every_marker (s : String) :
    countQ (pgConvert s) = 0 ∧
    countCh '$' (pgConvert s).data = countCh '$' s.data + countQ s :=
  ⟨countQ_pgConvert s, countDollar_pgConvert s⟩

/-- Counterexample for C7 as stated: the fragment `note = 'ok?' AND id = ?`
holds a `?` inside a quoted literal; the Postgres build numbers it to `$1`
and advances the numbering, so the true marker becomes `$2`. -/
theorem pg_rewrite_literal_marker_renumbered :
    pgLiteralAdapter.wheres = ["note = 'ok?' AND id = ?"] ∧
    (pgLiteralAdapter.build false).1
      = "SELECT * FROM t WHERE note = 'ok$1' AND id = $2" :=
  ⟨rfl, rfl⟩

/-- C8: over a cleanly empty cursor, `First` surfaces the distinct
record-not-found fault while the single-struct `Scan` path returns no error
and leaves the destination untouched. -/
theorem first_notFound_scanStruct_untouched {ρ δ : Type} (q : SqlQueryAdapter)
    (t : String) (dest : δ) (decodeRow : δ → ρ → Except OrmFault δ) :
    (q.First (some t) ⟨[], none⟩ dest decodeRow).2.2
        = Except.error OrmFault.notFound ∧
      (q.ScanStruct (some t) ⟨[], none⟩ dest decodeRow).2.2 = Except.ok dest := by
  rcases hm : q.model with _ | m <;>
    simp [SqlQueryAdapter.First, SqlQueryAdapter.ScanStruct, bindModel, hm]

/-- C9: when no model is bound and the destination implements the
table-naming capability, both `Scan` and `First` set the receiver's `model`
and `table` fields from the destination: the receiver's post-state is the
updated builder, not a clone left equal to the input. -/
theorem scan_first_nil_model_mutates_receiver {ρ δ : Type} (q : SqlQueryAdapter)
    (t : String) (res : ExecResult ρ) (dest : δ)
    (decodeRow : δ → ρ → Except OrmFault δ) (h : q.model = none) :
    (q.First (some t) res dest decodeRow).1 = { q with model := some t, table := t } ∧
    (q.ScanStruct (some t) res dest decodeRow).1
      = { q with model := some t, table := t } := by
  have hb : bindModel q (some t) = .ok { q with model := some t, table := t } := by
    simp [bindModel, h]
  constructor <;> simp [SqlQueryAdapter.First, SqlQueryAdapter.ScanStruct, hb]

/-- Witness for C9 at a fresh adapter. -/
theorem scan_first_nil_model_mutates_receiver_witness :
    ((initAdapter .FlavorMySQL).First (some "users")
        (ExecResult.mk ([] : List Unit) none) () (fun d _ => Except.ok d)).1
      = { initAdapter .FlavorMySQL with model := some "users", table := "users" } ∧
    ((initAdapter .FlavorMySQL).ScanStruct (some "users")
        (ExecResult.mk ([] : List Unit) none) () (fun d _ => Except.ok d)).1
      = { initAdapter .FlavorMySQL with model := some "users", table := "users" } :=
  scan_first_nil_model_mutates_receiver (initAdapter .FlavorMySQL) "users"
    (ExecResult.mk ([] : List Unit) none) () (fun d _ => Except.ok d) rfl

/-- C10: `First` appends the `LIMIT 1` suffix exactly when the lower-cased
statement text nowhere contains the substring `limit`; a statement that only
mentions `limit` inside a column name, such as `ORDER BY limit_count`, is
issued without the suffix. -/
theorem first_appends_limit_iff_absent (q : SqlQueryAdapter) :
    (q.firstSql = (q.build false).1 ++ " LIMIT 1" ↔
      containsSub (toLowerGo (q.build false).1) "limit" = false) ∧
    (((initAdapter .FlavorMySQL).UseModel "t").Order "limit_count").firstSql
      = "SELECT * FROM t ORDER BY limit_count" := by
  constructor
  · cases hx : containsSub (toLowerGo (q.build false).1) "limit" with
    | false => simp [SqlQueryAdapter.firstSql, hx]
    | true =>
      simp only [SqlQueryAdapter.firstSql, hx, if_true]
      constructor
      · intro h
        exfalso
        have hl := congrArg String.length h
        rw [String.length_append] at hl
        have h8 : (" LIMIT 1" : String).length = 8 := by decide
        omega
      · intro h
        simp at h
  · rfl
